import Mathlib

/-!
# Verification of the availability scheduling engine

Shallow embedding of the scheduling engine of `ScheduleCalendar`
(src/unnamed/part_000).  Calendar dates are modelled as natural day
numbers (a JS `Date` at local midnight corresponds to its day number;
`YYYY-MM-DD` strings compare the same way day numbers do).  Times of day
are the `HH:MM` / `HH:MM:SS` strings the source manipulates, together
with the minute arithmetic the source performs on them.
-/

/-- Character-level model of JS `time.split(':')`. -/
def splitOnColonAux : List Char → List Char → List String
  | [], acc => [String.mk acc.reverse]
  | c :: cs, acc =>
    if c = ':' then String.mk acc.reverse :: splitOnColonAux cs []
    else splitOnColonAux cs (c :: acc)

def splitOnColon (s : String) : List String :=
  splitOnColonAux s.data []

/-- JS `Number` on the digit strings the engine feeds it (`Number('') = 0`). -/
def digitsToNat (cs : List Char) : Nat :=
  cs.foldl (fun a c => a * 10 + (c.toNat - 48)) 0

/-- Minute value of a `HH:MM[:SS]` string: `h * 60 + m`, as computed by
`const [h, m] = time.split(':').map(Number)` throughout the source. -/
def timeToMinutes (t : String) : Nat :=
  let parts := splitOnColon t
  digitsToNat (parts.getD 0 "").data * 60 + digitsToNat (parts.getD 1 "").data

/-- JS `String(n).padStart(2, '0')` for the two-digit fields the engine formats. -/
def padStart2 (s : String) : String :=
  if s.length ≥ 2 then s else if s.length = 1 then "0" ++ s else "00"

/-- Renders a minute count as `HH:MM`, as the generation loop does. -/
def minutesToTime (m : Nat) : String :=
  padStart2 (toString (m / 60)) ++ ":" ++ padStart2 (toString (m % 60))

/-- JS `s || d` for the string defaults in `normalizeTime`. -/
def orElseEmpty (s d : String) : String :=
  if s = "" then d else s

/-- `normalizeTime` (part_000 lines 146-152): pad to `HH:MM:SS`. -/
def normalizeTime (time : String) : String :=
  let parts := splitOnColon time
  padStart2 (parts.getD 0 "") ++ ":" ++
    padStart2 (orElseEmpty (parts.getD 1 "") "00") ++ ":" ++
    padStart2 (orElseEmpty (parts.getD 2 "") "00")

/-- End-time arithmetic used by `calculateEndTime`, `saveTimeSlot` and the
batch generator: `(start + dur)` minutes, hours reduced mod 24. -/
def addMinutes (t : String) (dur : Nat) : String :=
  let total := timeToMinutes t + dur
  padStart2 (toString (total / 60 % 24)) ++ ":" ++ padStart2 (toString (total % 60))

/-- JS `s.slice(0, 5)` applied to a stored `start_time` when loading slots. -/
def take5 (s : String) : String :=
  String.mk (s.data.take 5)

/-- The `while (currentMinutes + duration <= toMinutes)` loop of
`generateTimeSlots` at the minute level.  The fuel argument only bounds
the iteration count; `genStarts` supplies enough fuel for every run the
source can perform (with `duration = 0` the source loop would not
terminate, but `validateQuickSetup` rejects that input before the loop
runs). -/
def genStartsAux (dur : Nat) : Nat → Nat → Nat → List Nat
  | 0, _, _ => []
  | fuel + 1, cur, toM =>
    if 0 < dur ∧ cur + dur ≤ toM then cur :: genStartsAux dur fuel (cur + dur) toM
    else []

/-- Start minutes emitted by `generateTimeSlots` (part_000 lines 1041-1078). -/
def genStarts (cur toM dur : Nat) : List Nat :=
  genStartsAux dur (toM + 1) cur toM

/-- `generateTimeSlots`: emitted `HH:MM` start times for the quick-setup
inputs. -/
def generateTimeSlots (fromTime toTime : String) (dur : Nat) : List String :=
  (genStarts (timeToMinutes fromTime) (timeToMinutes toTime) dur).map minutesToTime

theorem genStartsAux_closed_form (dur toM : Nat) (hd : 0 < dur) :
    ∀ fuel cur, (toM - cur) / dur < fuel →
      genStartsAux dur fuel cur toM =
        (List.range ((toM - cur) / dur)).map (fun k => cur + k * dur) := by
  intro fuel
  induction fuel with
  | zero => intro cur h; exact absurd h (Nat.not_lt_zero _)
  | succ n ih =>
    intro cur h
    rw [genStartsAux]
    by_cases hc : cur + dur ≤ toM
    · have hq : (toM - cur) / dur = (toM - (cur + dur)) / dur + 1 := by
        have hsum : toM - cur = (toM - (cur + dur)) + dur := by omega
        rw [hsum, Nat.add_div_right _ hd]
      rw [if_pos ⟨hd, hc⟩, ih (cur + dur) (by omega)]
      rw [hq, List.range_succ_eq_map, List.map_cons, List.map_map]
      have hfun : ((fun k => cur + k * dur) ∘ Nat.succ) = (fun k => (cur + dur) + k * dur) := by
        funext k
        simp [Nat.succ_mul]
        ring
      rw [hfun]
      simp
    · have hz : (toM - cur) / dur = 0 := by
        apply Nat.div_eq_of_lt
        omega
      rw [if_neg (by omega), hz]
      simp

theorem genStarts_closed_form (cur toM dur : Nat) (hd : 0 < dur) :
    genStarts cur toM dur = (List.range ((toM - cur) / dur)).map (fun k => cur + k * dur) := by
  apply genStartsAux_closed_form dur toM hd
  have h1 : (toM - cur) / dur ≤ toM - cur := Nat.div_le_self _ _
  omega

/-- C1: for `fromMinutes < toMinutes` and `duration > 0` the generator emits
exactly `⌊(to-from)/duration⌋` start times; the first is `fromTime`
(position `i` holds `from + i·duration`, so consecutive starts differ by
exactly `duration`); every emitted `start + duration ≤ toMinutes`; and a
window shorter than one duration yields the empty list, not an error. -/
theorem C1_slot_generator_correct (fromM toM dur : Nat)
    (h1 : fromM < toM) (h2 : 0 < dur) :
    (genStarts fromM toM dur).length = (toM - fromM) / dur ∧
    (dur ≤ toM - fromM → (genStarts fromM toM dur).head? = some fromM) ∧
    (∀ i, i < (toM - fromM) / dur →
      (genStarts fromM toM dur)[i]? = some (fromM + i * dur)) ∧
    (∀ s ∈ genStarts fromM toM dur, s + dur ≤ toM) ∧
    (toM - fromM < dur → genStarts fromM toM dur = []) := by
  have hcf := genStarts_closed_form fromM toM dur h2
  refine ⟨?_, ?_, ?_, ?_, ?_⟩
  · rw [hcf]; simp
  · intro hle
    have hq : 0 < (toM - fromM) / dur := Nat.div_pos hle h2
    rw [hcf]
    rcases Nat.exists_eq_add_of_lt hq with ⟨q, hq'⟩
    rw [hq']
    simp [List.range_succ_eq_map]
  · intro i hi
    rw [hcf, List.getElem?_map, List.getElem?_range hi]
    rfl
  · intro s hs
    rw [hcf] at hs
    rcases List.mem_map.mp hs with ⟨k, hk, rfl⟩
    have hk' : k < (toM - fromM) / dur := List.mem_range.mp hk
    have hmul : (k + 1) * dur ≤ ((toM - fromM) / dur) * dur :=
      Nat.mul_le_mul_right _ hk'
    have hdm : ((toM - fromM) / dur) * dur ≤ toM - fromM := Nat.div_mul_le_self _ _
    have : (k + 1) * dur ≤ toM - fromM := le_trans hmul hdm
    have hexp : (k + 1) * dur = k * dur + dur := by ring
    omega
  · intro hlt
    have hz : (toM - fromM) / dur = 0 := Nat.div_eq_of_lt hlt
    rw [hcf, hz]
    simp

/-- Witness for C1 at the spec's own example `09:00`-`10:00`, 30 minutes. -/
theorem C1_slot_generator_correct_witness :
    (genStarts 540 600 30).length = 2 ∧ (genStarts 540 600 30).head? = some 540 :=
  ⟨(C1_slot_generator_correct 540 600 30 (by decide) (by decide)).1,
   (C1_slot_generator_correct 540 600 30 (by decide) (by decide)).2.1 (by decide)⟩

/-! ## Data model -/

/-- A row of the `barber_slots` store (`slot_date` as a day number). -/
structure DbSlot where
  id : String
  slot_date : Nat
  start_time : String
  end_time : String
  is_booked : Bool
deriving DecidableEq, Repr

/-- An in-memory `TimeSlot` of the component state. -/
structure TimeSlot where
  id : String
  time : String
  available : Bool
  booked : Bool
deriving DecidableEq, Repr

/-- A `DaySchedule` of the component state (`date` as a day number). -/
structure DaySchedule where
  date : Nat
  isOff : Bool
  slots : List TimeSlot
deriving DecidableEq, Repr

/-- The `working_days_<id>` KV object: a date-keyed boolean map. -/
abbrev WorkingMap : Type := List (Nat × Bool)

def lookupWM (wm : WorkingMap) (d : Nat) : Option Bool :=
  (wm.find? (fun p => p.1 == d)).map (fun p => p.2)

/-- `updateWorkingDayState` (part_000 lines 584-645): set the key to `true`
when marking a day working, delete the key when marking it off. -/
def updateWorkingDayState (wm : WorkingMap) (date : Nat) (isWorkingDay : Bool) : WorkingMap :=
  if isWorkingDay then wm.filter (fun p => p.1 != date) ++ [(date, true)]
  else wm.filter (fun p => p.1 != date)

/-- Insertion step of the per-day slot sort. -/
def insertBy {α : Type} (le : α → α → Bool) (x : α) : List α → List α
  | [] => [x]
  | y :: ys => if le x y then x :: y :: ys else y :: insertBy le x ys

/-- The `slots.sort(...)` calls of the source, as an insertion sort. -/
def sortBy {α : Type} (le : α → α → Bool) : List α → List α
  | [] => []
  | x :: xs => insertBy le x (sortBy le xs)

/-- One day built by `loadSlots` (part_000 lines 372-441): `isOff` comes only
from the working-day map requiring the exact value `true`; the day's slots
are the fetched rows for its date, times truncated to `HH:MM`, sorted. -/
def loadedDay (wm : WorkingMap) (db : List DbSlot) (windowStart idx : Nat) : DaySchedule :=
  let dateN := windowStart + idx
  { date := dateN
    isOff := !(lookupWM wm dateN == some true)
    slots := sortBy (fun a b => Nat.ble (timeToMinutes a.time) (timeToMinutes b.time))
      ((db.filter (fun s => s.slot_date == dateN)).map
        (fun s => { id := s.id, time := take5 s.start_time,
                    available := !s.is_booked, booked := s.is_booked })) }

/-- The full 8-day schedule `loadSlots` builds for the current page
(`getPageStartDate`: the window starts at `today + pageIdx * 8`). -/
def loadSlotsSchedule (today pageIdx : Nat) (wm : WorkingMap) (db : List DbSlot) :
    List DaySchedule :=
  (List.range 8).map (loadedDay wm db (today + pageIdx * 8))

/-- `isDuplicateTime` (part_000 lines 647-651). -/
def isDuplicateTime (sched : List DaySchedule) (dayIndex : Nat) (time : String)
    (excludeSlotId : Option String) : Bool :=
  match sched[dayIndex]? with
  | some d => d.slots.any (fun slot =>
      slot.time == time &&
        (match excludeSlotId with
         | none => true
         | some e => slot.id != e))
  | none => false

theorem mem_insertBy {α : Type} (le : α → α → Bool) (x a : α) (l : List α) :
    a ∈ insertBy le x l ↔ a = x ∨ a ∈ l := by
  induction l with
  | nil => simp [insertBy]
  | cons y ys ih =>
    rw [insertBy]
    by_cases h : le x y = true
    · simp [h]
    · simp only [if_neg h, List.mem_cons, ih]
      tauto

theorem mem_sortBy {α : Type} (le : α → α → Bool) (a : α) (l : List α) :
    a ∈ sortBy le l ↔ a ∈ l := by
  induction l with
  | nil => simp [sortBy]
  | cons x xs ih => rw [sortBy, mem_insertBy, ih]; simp

theorem lookupWM_filter_ne (wm : WorkingMap) (date d : Nat) (h : d ≠ date) :
    lookupWM (wm.filter (fun p => p.1 != date)) d = lookupWM wm d := by
  induction wm with
  | nil => rfl
  | cons p ps ih =>
    obtain ⟨k, v⟩ := p
    rw [List.filter_cons]
    by_cases hk : k = date
    · have hne : ((k, v).1 != date) = false := by simp [hk]
      have hkd : (((k, v).1 == d) : Bool) = false := by simp [hk]; omega
      rw [hne, if_neg (by simp)]
      rw [ih]
      unfold lookupWM
      rw [List.find?_cons_of_neg _ (by simp [hkd])]
    · have hne : ((k, v).1 != date) = true := by simp [hk]
      rw [hne, if_pos rfl]
      by_cases hkd : k = d
      · unfold lookupWM
        rw [List.find?_cons_of_pos _ (by simp [hkd]),
          List.find?_cons_of_pos _ (by simp [hkd])]
      · unfold lookupWM
        rw [List.find?_cons_of_neg _ (by simp [hkd]),
          List.find?_cons_of_neg _ (by simp [hkd])]
        exact ih

theorem lookupWM_filter_self (wm : WorkingMap) (date : Nat) :
    lookupWM (wm.filter (fun p => p.1 != date)) date = none := by
  induction wm with
  | nil => rfl
  | cons p ps ih =>
    obtain ⟨k, v⟩ := p
    rw [List.filter_cons]
    by_cases hk : k = date
    · rw [if_neg (by simp [hk])]
      exact ih
    · rw [if_pos (by simp [hk])]
      unfold lookupWM
      rw [List.find?_cons_of_neg _ (by simp [hk])]
      exact ih

theorem lookupWM_update_false (wm : WorkingMap) (date d : Nat) :
    lookupWM (updateWorkingDayState wm date false) d =
      if d = date then none else lookupWM wm d := by
  rw [updateWorkingDayState]
  by_cases h : d = date
  · rw [if_neg (by simp), if_pos h, h]
    exact lookupWM_filter_self wm date
  · rw [if_neg (by simp), if_neg h]
    exact lookupWM_filter_ne wm date d h

theorem lookupWM_update_true (wm : WorkingMap) (date d : Nat) :
    lookupWM (updateWorkingDayState wm date true) d =
      if d = date then some true else lookupWM wm d := by
  rw [updateWorkingDayState, if_pos rfl]
  unfold lookupWM
  rw [List.find?_append]
  by_cases h : d = date
  · have h0 : List.find? (fun p => p.1 == d) (wm.filter (fun p => p.1 != date)) = none := by
      have := lookupWM_filter_self wm date
      unfold lookupWM at this
      subst h
      cases hf : List.find? (fun p => p.1 == d) (wm.filter (fun p => p.1 != d)) with
      | none => rfl
      | some x => rw [hf] at this; simp at this
    rw [h0, if_pos h]
    subst h
    simp [List.find?]
  · have h1 : List.find? (fun p => p.1 == d) (wm.filter (fun p => p.1 != date)) =
        List.find? (fun p => p.1 == d) wm := by
      have := lookupWM_filter_ne wm date d h
      unfold lookupWM at this
      cases hf : List.find? (fun p => p.1 == d) (wm.filter (fun p => p.1 != date)) with
      | none =>
        rw [hf] at this
        cases hg : List.find? (fun p => p.1 == d) wm with
        | none => rfl
        | some x => rw [hg] at this; simp at this
      | some x =>
        rw [hf] at this
        cases hg : List.find? (fun p => p.1 == d) wm with
        | none => rw [hg] at this; simp at this
        | some y =>
          rw [hg] at this
          simp at this
          have hx := List.find?_some hf
          have hy := List.find?_some hg
          have hx1 : x.1 = d := by simpa using hx
          have hy1 : y.1 = d := by simpa using hy
          have : x = y := by
            obtain ⟨x1, x2⟩ := x
            obtain ⟨y1, y2⟩ := y
            simp_all
          rw [this]
    rw [h1, if_neg h]
    cases hg : List.find? (fun p => p.1 == d) wm with
    | none =>
      have hd : (((date, true).1 == d) : Bool) = false := by simp; omega
      simp [List.find?, hd]
    | some x => simp

theorem loadedDay_isOff (wm : WorkingMap) (db : List DbSlot) (windowStart idx : Nat) :
    (loadedDay wm db windowStart idx).isOff =
      !(lookupWM wm (windowStart + idx) == some true) := rfl

theorem loadedDay_slots (wm : WorkingMap) (db : List DbSlot) (windowStart idx : Nat) :
    (loadedDay wm db windowStart idx).slots =
      sortBy (fun a b => Nat.ble (timeToMinutes a.time) (timeToMinutes b.time))
        ((db.filter (fun s => s.slot_date == windowStart + idx)).map
          (fun s => { id := s.id, time := take5 s.start_time,
                      available := !s.is_booked, booked := s.is_booked })) := rfl

theorem loadSlotsSchedule_get (today pageIdx dayIndex : Nat) (wm : WorkingMap)
    (db : List DbSlot) (h : dayIndex < 8) :
    (loadSlotsSchedule today pageIdx wm db)[dayIndex]? =
      some (loadedDay wm db (today + pageIdx * 8) dayIndex) := by
  unfold loadSlotsSchedule
  rw [List.getElem?_map, List.getElem?_range h]
  rfl

/-- C10: a loaded day is working only when the stored map binds its date to
the exact value `true`; a date absent from the map (as `toggleDayOff` leaves
it, deleting the key) loads as off; and `isOff` never depends on which slots
exist on the date. -/
theorem C10_working_day_requires_true (wm : WorkingMap) (db : List DbSlot)
    (windowStart idx : Nat) :
    ((loadedDay wm db windowStart idx).isOff = false ↔
      lookupWM wm (windowStart + idx) = some true) ∧
    (∀ db2 : List DbSlot,
      (loadedDay wm db2 windowStart idx).isOff = (loadedDay wm db windowStart idx).isOff) ∧
    (∀ d : Nat, lookupWM (updateWorkingDayState wm d false) d = none) ∧
    (lookupWM wm (windowStart + idx) = none →
      (loadedDay wm db windowStart idx).isOff = true) := by
  refine ⟨?_, fun db2 => rfl, fun d => by rw [lookupWM_update_false]; simp, ?_⟩
  · rw [loadedDay_isOff]
    cases h : lookupWM wm (windowStart + idx) with
    | none => simp [h]
    | some b => cases b <;> simp
  · intro h
    rw [loadedDay_isOff, h]
    rfl

/-- Witness for C10: an untouched map loads every date as off. -/
theorem C10_working_day_requires_true_witness :
    lookupWM ([] : WorkingMap) 0 = none ∧ (loadedDay [] [] 0 0).isOff = true :=
  ⟨rfl, (C10_working_day_requires_true [] [] 0 0).2.2.2 rfl⟩

/-- C7: on a loaded schedule, `isDuplicateTime day time excludeId` is true iff
some stored row on that date has the same start time after `HH:MM`
truncation (so seconds-level formatting differences in the stored value
never matter) and an id different from `excludeId`; a slot therefore never
conflicts with itself during an edit check. -/
theorem C7_isDuplicate_iff (today pageIdx dayIndex : Nat) (wm : WorkingMap)
    (db : List DbSlot) (time : String) (ex : Option String) (hday : dayIndex < 8) :
    isDuplicateTime (loadSlotsSchedule today pageIdx wm db) dayIndex time ex = true ↔
      ∃ s ∈ db, s.slot_date = today + pageIdx * 8 + dayIndex ∧
        take5 s.start_time = time ∧ (∀ e, ex = some e → s.id ≠ e) := by
  simp only [isDuplicateTime, loadSlotsSchedule_get today pageIdx dayIndex wm db hday]
  rw [List.any_eq_true]
  constructor
  · rintro ⟨t, ht, hp⟩
    rw [loadedDay_slots, mem_sortBy] at ht
    obtain ⟨s, hs, rfl⟩ := List.mem_map.mp ht
    obtain ⟨hmem, hq⟩ := List.mem_filter.mp hs
    rw [Bool.and_eq_true] at hp
    refine ⟨s, hmem, by simpa using hq, by simpa using hp.1, ?_⟩
    intro e he
    rw [he] at hp
    simpa using hp.2
  · rintro ⟨s, hmem, hdate, htime, hex⟩
    refine ⟨{ id := s.id, time := take5 s.start_time,
              available := !s.is_booked, booked := s.is_booked }, ?_, ?_⟩
    · rw [loadedDay_slots, mem_sortBy]
      exact List.mem_map.mpr ⟨s, List.mem_filter.mpr ⟨hmem, by simpa using hdate⟩, rfl⟩
    · rw [Bool.and_eq_true]
      refine ⟨by simpa using htime, ?_⟩
      cases ex with
      | none => rfl
      | some e => simpa using hex e rfl

def c7db : List DbSlot :=
  [{ id := "a", slot_date := 0, start_time := "09:00:00", end_time := "10:00:00",
     is_booked := false }]

/-- Witness for C7 at a concrete stored row with seconds-level formatting. -/
theorem C7_isDuplicate_iff_witness :
    isDuplicateTime (loadSlotsSchedule 0 0 [] c7db) 0 "09:00" (some "a") = true ↔
      ∃ s ∈ c7db, s.slot_date = 0 + 0 * 8 + 0 ∧
        take5 s.start_time = "09:00" ∧ (∀ e, (some "a" : Option String) = some e → s.id ≠ e) :=
  C7_isDuplicate_iff 0 0 0 [] c7db "09:00" (some "a") (by decide)

/-! ## Backend store (spec-modelled)

The `make-server-166b98fa` slot endpoints the component calls are part of
this repository but are not under `src/`.  They are modelled from the spec:
spec section 6 gives the store operations, and spec section 7 requires the
server to re-check booked state authoritatively (ConflictError) before an
edit or delete is applied. -/

/-- Modelled from the spec: `DELETE /barber/slots/:id`.  Missing from src/;
per spec sections 6-7 the server looks the slot up (NotFoundError) and
re-checks `is_booked` authoritatively (ConflictError) before deleting. -/
def backendDeleteSlot (db : List DbSlot) (slotId : String) : Except String (List DbSlot) :=
  match db.find? (fun r => r.id == slotId) with
  | none => .error "not found"
  | some s =>
    if s.is_booked then .error "conflict"
    else .ok (db.filter (fun r => r.id != slotId))

/-- Modelled from the spec: `PUT /barber/slots/:id` with new start/end times.
Missing from src/; per spec sections 6-7 the server looks the slot up and
re-checks `is_booked` authoritatively before updating. -/
def backendUpdateSlot (db : List DbSlot) (slotId st et : String) :
    Except String (List DbSlot) :=
  match db.find? (fun r => r.id == slotId) with
  | none => .error "not found"
  | some s =>
    if s.is_booked then .error "conflict"
    else .ok (db.map (fun r =>
      if r.id == slotId then { r with start_time := st, end_time := et } else r))

/-! ## Mutation operations of the component -/

/-- Joint result of a mutation path: the store, the local component state,
the working-day map, and how many `loadSlots` refetches the path performed. -/
structure MutationResult where
  db : List DbSlot
  sched : List DaySchedule
  wm : WorkingMap
  refetches : Nat
deriving DecidableEq, Repr

/-- Outcome of the validation phase of `instantAddTimeSlot`
(part_000 lines 721-764): the guards that run before any storage call. -/
inductive AddOutcome where
  | rejectedPastDate
  | rejectedPastTime
  | requested (payload : DbSlot)
deriving DecidableEq, Repr

/-- The validation phase of `instantAddTimeSlot`: reject a date strictly
before today, reject a time at or before now on today, otherwise build the
POST payload (`start_time` normalized, `end_time` = start + 60 min). -/
def instantAddOutcome (today slotDate currentMinutes : Nat) (slotTime : String) :
    AddOutcome :=
  if slotDate < today then .rejectedPastDate
  else if slotDate = today ∧ timeToMinutes slotTime ≤ currentMinutes then .rejectedPastTime
  else .requested
    { id := "new", slot_date := slotDate,
      start_time := normalizeTime slotTime,
      end_time := normalizeTime (addMinutes slotTime 60),
      is_booked := false }

/-- Result of the `addSlot` flow as seen by C6. -/
inductive AddSlotResult where
  | rejected
  | requested (payload : DbSlot)
deriving DecidableEq, Repr

/-- `handleTimePickerConfirm` (part_000 lines 985-1006) followed by
`instantAddTimeSlot`: the duplicate check runs first, then the past-date
and past-time guards; only a surviving request reaches the store. -/
def addSlotViaTimePicker (sched : List DaySchedule) (dayIndex : Nat)
    (selectedStartTime : String) (today slotDate currentMinutes : Nat) : AddSlotResult :=
  if isDuplicateTime sched dayIndex selectedStartTime none then .rejected
  else
    match instantAddOutcome today slotDate currentMinutes selectedStartTime with
    | .requested p => .requested p
    | _ => .rejected

/-- Store contents after the `addSlot` flow, given whether the create call
(if one was issued at all) succeeded. -/
def addSlotDbAfter (db : List DbSlot) (r : AddSlotResult) (serverOk : Bool) :
    List DbSlot :=
  match r with
  | .rejected => db
  | .requested p => if serverOk then db ++ [p] else db

/-- `instantAddTimeSlot` end to end (part_000 lines 721-831): on a created
slot the component refetches with `loadSlots`; every rejected or failed
path leaves all state alone and performs no refetch. -/
def instantAddTimeSlot (today pageIdx dayIndex currentMinutes : Nat)
    (slotTime : String) (wm : WorkingMap) (db : List DbSlot)
    (sched : List DaySchedule) (serverOk : Bool) : MutationResult :=
  let slotDate := today + pageIdx * 8 + dayIndex
  match instantAddOutcome today slotDate currentMinutes slotTime with
  | .requested p =>
    if serverOk then
      let db2 := db ++ [p]
      { db := db2, sched := loadSlotsSchedule today pageIdx wm db2,
        wm := wm, refetches := 1 }
    else { db := db, sched := sched, wm := wm, refetches := 0 }
  | _ => { db := db, sched := sched, wm := wm, refetches := 0 }

/-- `removeTimeSlot` (part_000 lines 833-889): delete through the backend;
on success an optimistic local removal is followed by one `loadSlots`
refetch (the refetched state is what remains); on a failed delete the catch
block changes nothing and does not refetch. -/
def removeTimeSlot (today pageIdx : Nat) (slotId : String) (wm : WorkingMap)
    (db : List DbSlot) (sched : List DaySchedule) : MutationResult :=
  match backendDeleteSlot db slotId with
  | .error _ => { db := db, sched := sched, wm := wm, refetches := 0 }
  | .ok db2 =>
    { db := db2, sched := loadSlotsSchedule today pageIdx wm db2,
      wm := wm, refetches := 1 }

/-- Replace the element at an index (the `map` with index-match pattern the
source uses for local state updates). -/
def updateAt {α : Type} : Nat → (α → α) → List α → List α
  | _, _, [] => []
  | 0, f, x :: xs => f x :: xs
  | n + 1, f, x :: xs => x :: updateAt n f xs

/-- The local patch `saveTimeSlot` applies to the edited day on success:
rewrite the edited slot's time and re-sort by string compare
(`localeCompare` on `HH:MM` strings). -/
def localEditDay (slotId editingTime : String) (day : DaySchedule) : DaySchedule :=
  let patched := day.slots.map (fun slot =>
    if slot.id == slotId then { slot with time := editingTime } else slot)
  { day with slots := sortBy (fun a b => decide (a.time ≤ b.time)) patched }

/-- `saveTimeSlot` (part_000 lines 903-982): duplicate check against local
state first (excluding the edited slot's own id), then a backend update
with `end_time = start + 60 min`; on success only the local day is patched
and re-sorted - no refetch happens on any path. -/
def saveTimeSlot (dayIndex : Nat) (slotId editingTime : String)
    (wm : WorkingMap) (db : List DbSlot) (sched : List DaySchedule) : MutationResult :=
  if isDuplicateTime sched dayIndex editingTime (some slotId) then
    { db := db, sched := sched, wm := wm, refetches := 0 }
  else
    match backendUpdateSlot db slotId editingTime (addMinutes editingTime 60) with
    | .error _ => { db := db, sched := sched, wm := wm, refetches := 0 }
    | .ok db2 =>
      { db := db2,
        sched := updateAt dayIndex (localEditDay slotId editingTime) sched,
        wm := wm, refetches := 0 }

/-! ## Quick setup -/

/-- `validateQuickSetup` (part_000 lines 1015-1038). -/
def validateQuickSetup (fromTime toTime : String) (dur : Nat) : Bool :=
  if timeToMinutes toTime ≤ timeToMinutes fromTime then false
  else if dur = 0 then false
  else true

/-- `hasExistingSlots` (part_000 lines 1081-1083): checks the currently
loaded page schedule, whatever window it shows. -/
def hasExistingSlots (sched : List DaySchedule) : Bool :=
  sched.any (fun day => day.slots.length > 0)

inductive QuickSetupAction where
  | invalid
  | askConfirm
  | proceed
deriving DecidableEq, Repr

/-- `handleQuickSetup` (part_000 lines 1086-1099). -/
def handleQuickSetup (fromTime toTime : String) (dur : Nat)
    (sched : List DaySchedule) : QuickSetupAction :=
  if !validateQuickSetup fromTime toTime dur then .invalid
  else if hasExistingSlots sched then .askConfirm
  else .proceed

/-- The per-day filter inside `executeQuickSetup` (part_000 lines 1154-1163):
drop a candidate only on day offset 0 when its minutes are at or before the
current time-of-day. -/
def daySlotTimes (slotTimes : List String) (currentMinutes dayOffset : Nat) :
    List String :=
  slotTimes.filter (fun t =>
    !(decide (dayOffset = 0) && decide (timeToMinutes t ≤ currentMinutes)))

/-- One row built by the batch loop for a kept candidate. -/
def mkQuickSlot (date : Nat) (t : String) (dur : Nat) : DbSlot :=
  { id := "new", slot_date := date,
    start_time := normalizeTime t,
    end_time := normalizeTime (addMinutes t dur),
    is_booked := false }

/-- All rows `executeQuickSetup` builds in memory for days 0-6. -/
def quickSetupInserts (today : Nat) (slotTimes : List String)
    (currentMinutes dur : Nat) : List DbSlot :=
  (List.range 7).flatMap (fun off =>
    (daySlotTimes slotTimes currentMinutes off).map
      (fun t => mkQuickSlot (today + off) t dur))

/-- The seven working-day updates of a quick setup run. -/
def setWorkingTrue (wm : WorkingMap) (ds : List Nat) : WorkingMap :=
  ds.foldl (fun m d => updateWorkingDayState m d true) wm

/-- `executeQuickSetup` (part_000 lines 1102-1253): generate, filter day 0,
batch delete `[today, today+6]` plus insert in one server call, then mark
all 7 dates working and refetch once; on a failed batch call nothing is
applied and the catch block still refetches once. -/
def executeQuickSetup (today pageIdx : Nat) (fromTime toTime : String)
    (dur currentMinutes : Nat) (wm : WorkingMap) (db : List DbSlot)
    (batchOk : Bool) : MutationResult :=
  let slotTimes := generateTimeSlots fromTime toTime dur
  let inserts := quickSetupInserts today slotTimes currentMinutes dur
  if inserts.isEmpty then
    let wm2 := setWorkingTrue wm ((List.range 7).map (fun i => today + i))
    { db := db, sched := loadSlotsSchedule today pageIdx wm2 db,
      wm := wm2, refetches := 1 }
  else if batchOk then
    let db2 := db.filter
      (fun s => !(decide (today ≤ s.slot_date) && decide (s.slot_date ≤ today + 6))) ++ inserts
    let wm2 := setWorkingTrue wm ((List.range 7).map (fun i => today + i))
    { db := db2, sched := loadSlotsSchedule today pageIdx wm2 db2,
      wm := wm2, refetches := 1 }
  else
    { db := db, sched := loadSlotsSchedule today pageIdx wm db,
      wm := wm, refetches := 1 }

/-- The per-day loop of `handleQuickSetupClear` (part_000 lines 1289-1310):
for each page date not in the past, delete that date's slots and clear its
working flag; `failAt = some k` aborts at the k-th processed date (the
thrown storage error). Returns the state and whether the loop finished. -/
def clearLoop (today : Nat) : List Nat → Option Nat → List DbSlot × WorkingMap →
    (List DbSlot × WorkingMap) × Bool
  | [], _, st => (st, true)
  | d :: ds, failAt, st =>
    if d < today then clearLoop today ds failAt st
    else if failAt = some 0 then (st, false)
    else
      clearLoop today ds (failAt.map (fun n => n - 1))
        (st.1.filter (fun s => s.slot_date != d), updateWorkingDayState st.2 d false)

/-- `handleQuickSetupClear` (part_000 lines 1256-1324): iterate over the 8
dates of the current page; success and failure both end in one `loadSlots`
refetch. -/
def handleQuickSetupClear (today pageIdx : Nat) (db : List DbSlot)
    (wm : WorkingMap) (failAt : Option Nat) : MutationResult :=
  let st := (clearLoop today ((List.range 8).map (fun i => today + pageIdx * 8 + i))
    failAt (db, wm)).1
  { db := st.1, sched := loadSlotsSchedule today pageIdx st.2 st.1,
    wm := st.2, refetches := 1 }

/-! ## Day toggle -/

/-- Result of `toggleDayOff`. -/
structure ToggleResult where
  wm : WorkingMap
  db : List DbSlot
  sched : List DaySchedule
deriving DecidableEq, Repr

def defaultDay : DaySchedule :=
  { date := 0, isOff := true, slots := [] }

/-- `toggleDayOff` (part_000 lines 534-581): turning a day off deletes all
its stored slots, removes its working-map key and empties the local day;
turning it on just sets the key and the local flag, creating no slots. -/
def toggleDayOff (today pageIdx dayIndex : Nat) (wm : WorkingMap)
    (db : List DbSlot) (sched : List DaySchedule) : ToggleResult :=
  let currentDay := sched.getD dayIndex defaultDay
  let slotDate := today + pageIdx * 8 + dayIndex
  if !currentDay.isOff then
    { wm := updateWorkingDayState wm slotDate false,
      db := db.filter (fun s => s.slot_date != slotDate),
      sched := updateAt dayIndex (fun day => { day with isOff := true, slots := [] }) sched }
  else
    { wm := updateWorkingDayState wm slotDate true,
      db := db,
      sched := updateAt dayIndex (fun day => { day with isOff := false }) sched }

/-- `toggleDayOff` applied twice to the same day. -/
def toggleDayOffTwice (today pageIdx dayIndex : Nat) (wm : WorkingMap)
    (db : List DbSlot) (sched : List DaySchedule) : ToggleResult :=
  let r1 := toggleDayOff today pageIdx dayIndex wm db sched
  toggleDayOff today pageIdx dayIndex r1.wm r1.db r1.sched

/-! ## Claim theorems: single-slot operations -/

/-- C2: through the engine, a slot with `isBooked = true` can be neither
edited nor deleted: `saveTimeSlot` and `removeTimeSlot` end with the store
and the local schedule unchanged whenever the targeted slot is booked,
whoever invokes them (the backend re-check is modelled from the spec, see
`backendUpdateSlot` / `backendDeleteSlot`). -/
theorem C2_booked_slot_immutable (today pageIdx dayIndex : Nat)
    (slotId editingTime : String) (wm : WorkingMap) (db : List DbSlot)
    (sched : List DaySchedule) (s : DbSlot)
    (hfind : db.find? (fun r => r.id == slotId) = some s)
    (hbooked : s.is_booked = true) :
    (saveTimeSlot dayIndex slotId editingTime wm db sched).db = db ∧
    (saveTimeSlot dayIndex slotId editingTime wm db sched).sched = sched ∧
    (removeTimeSlot today pageIdx slotId wm db sched).db = db ∧
    (removeTimeSlot today pageIdx slotId wm db sched).sched = sched := by
  have hupd : backendUpdateSlot db slotId editingTime (addMinutes editingTime 60) =
      Except.error "conflict" := by
    unfold backendUpdateSlot
    rw [hfind]
    simp [hbooked]
  have hdel : backendDeleteSlot db slotId = Except.error "conflict" := by
    unfold backendDeleteSlot
    rw [hfind]
    simp [hbooked]
  refine ⟨?_, ?_, ?_, ?_⟩
  · unfold saveTimeSlot
    by_cases hdup : isDuplicateTime sched dayIndex editingTime (some slotId) = true
    · rw [if_pos hdup]
    · rw [if_neg hdup, hupd]
  · unfold saveTimeSlot
    by_cases hdup : isDuplicateTime sched dayIndex editingTime (some slotId) = true
    · rw [if_pos hdup]
    · rw [if_neg hdup, hupd]
  · unfold removeTimeSlot
    rw [hdel]
  · unfold removeTimeSlot
    rw [hdel]

def c2db : List DbSlot :=
  [{ id := "b1", slot_date := 0, start_time := "09:00:00", end_time := "10:00:00",
     is_booked := true }]

/-- Witness for C2 on a concrete booked slot. -/
theorem C2_booked_slot_immutable_witness :
    (saveTimeSlot 0 "b1" "11:00" [] c2db []).db = c2db ∧
    (saveTimeSlot 0 "b1" "11:00" [] c2db []).sched = [] ∧
    (removeTimeSlot 0 0 "b1" [] c2db []).db = c2db ∧
    (removeTimeSlot 0 0 "b1" [] c2db []).sched = [] :=
  C2_booked_slot_immutable 0 0 0 "b1" "11:00" [] c2db []
    { id := "b1", slot_date := 0, start_time := "09:00:00", end_time := "10:00:00",
      is_booked := true }
    (by decide) (by decide)

/-- C6: the `addSlot` flow rejects - before any storage call, leaving the
store unchanged - every request whose time duplicates an existing slot of
that day, every request on a day strictly before today, and every request
on today at or before the current time-of-day. -/
theorem C6_addSlot_rejections (sched : List DaySchedule) (dayIndex : Nat)
    (time : String) (today slotDate currentMinutes : Nat) (db : List DbSlot)
    (h : isDuplicateTime sched dayIndex time none = true ∨ slotDate < today ∨
      (slotDate = today ∧ timeToMinutes time ≤ currentMinutes)) :
    addSlotViaTimePicker sched dayIndex time today slotDate currentMinutes =
      AddSlotResult.rejected ∧
    ∀ serverOk, addSlotDbAfter db
      (addSlotViaTimePicker sched dayIndex time today slotDate currentMinutes)
      serverOk = db := by
  have hrej : addSlotViaTimePicker sched dayIndex time today slotDate currentMinutes =
      AddSlotResult.rejected := by
    unfold addSlotViaTimePicker
    by_cases hdup : isDuplicateTime sched dayIndex time none = true
    · rw [if_pos hdup]
    · rw [if_neg hdup]
      rcases h with h1 | hpast | htoday
      · exact absurd h1 hdup
      · unfold instantAddOutcome
        rw [if_pos hpast]
      · unfold instantAddOutcome
        by_cases hp : slotDate < today
        · rw [if_pos hp]
        · rw [if_neg hp, if_pos htoday]
  exact ⟨hrej, fun serverOk => by rw [hrej]; rfl⟩

def c6sched : List DaySchedule :=
  [{ date := 0, isOff := false,
     slots := [{ id := "x", time := "09:00", available := true, booked := false }] }]

/-- Witness for C6: a duplicate time is rejected with the store untouched. -/
theorem C6_addSlot_rejections_witness :
    addSlotViaTimePicker c6sched 0 "09:00" 0 0 1000 = AddSlotResult.rejected ∧
    ∀ serverOk, addSlotDbAfter []
      (addSlotViaTimePicker c6sched 0 "09:00" 0 0 1000) serverOk = [] :=
  C6_addSlot_rejections c6sched 0 "09:00" 0 0 1000 [] (Or.inl (by decide))

/-! ## Claim theorems: quick setup -/

/-- C5: in the batch loop, day offset 0 keeps exactly the generated start
times strictly after the current time-of-day, day offsets 1-6 keep every
generated start time, and the spec's example (`09:15`, window
`09:00`-`10:00`, 30 min) leaves only `09:30` on day 0. -/
theorem C5_current_day_past_filter (slotTimes : List String) (currentMinutes : Nat) :
    daySlotTimes slotTimes currentMinutes 0 =
      slotTimes.filter (fun t => decide (currentMinutes < timeToMinutes t)) ∧
    (∀ off, 1 ≤ off → off ≤ 6 → daySlotTimes slotTimes currentMinutes off = slotTimes) ∧
    daySlotTimes (generateTimeSlots "09:00" "10:00" 30) 555 0 = ["09:30"] := by
  refine ⟨?_, ?_, by decide⟩
  · unfold daySlotTimes
    apply List.filter_congr
    intro t _
    by_cases h : timeToMinutes t ≤ currentMinutes
    · simp [h, Nat.not_lt.mpr h]
    · simp [h, Nat.lt_of_not_le h]
  · intro off h1 h6
    unfold daySlotTimes
    have hoff : (decide (off = 0)) = false := by
      simp
      omega
    simp [hoff]

/-- Witness for C5 on a day offset in 1..6. -/
theorem C5_current_day_past_filter_witness :
    daySlotTimes ["09:00"] 555 3 = ["09:00"] :=
  (C5_current_day_past_filter ["09:00"] 555).2.1 3 (by decide) (by decide)

def c3db : List DbSlot :=
  [{ id := "s1", slot_date := 7, start_time := "09:00:00", end_time := "10:00:00",
     is_booked := false }]

/-- C3 counterexample: with today = 0 on page 0 the only stored slot lies on
date 7, outside the batch window `today..today+6`, yet `handleQuickSetup`
still demands confirmation, because `hasExistingSlots` scans the whole
loaded 8-day page - so "zero existing slots in that window proceeds
immediately" is false. -/
theorem C3_counterexample :
    (∀ s ∈ c3db, ¬ s.slot_date ≤ 6) ∧
    handleQuickSetup "09:00" "22:00" 30 (loadSlotsSchedule 0 0 [] c3db) =
      QuickSetupAction.askConfirm := by
  decide

/-- C3 (amended): the confirmation gate is keyed to the currently loaded
page schedule, not to the 7-day batch window: with valid inputs the batch
setup asks for confirmation iff some day of the loaded schedule holds a
slot, and proceeds immediately iff none does. -/
theorem C3_amended_confirmation_iff (fromTime toTime : String) (dur : Nat)
    (sched : List DaySchedule)
    (hv : validateQuickSetup fromTime toTime dur = true) :
    (handleQuickSetup fromTime toTime dur sched = QuickSetupAction.askConfirm ↔
      hasExistingSlots sched = true) ∧
    (handleQuickSetup fromTime toTime dur sched = QuickSetupAction.proceed ↔
      hasExistingSlots sched = false) := by
  unfold handleQuickSetup
  rw [hv]
  by_cases h : hasExistingSlots sched = true
  · simp [h]
  · have h0 : hasExistingSlots sched = false := by simpa using h
    simp [h0]

/-- Witness for C3 (amended): an empty schedule proceeds unconfirmed. -/
theorem C3_amended_confirmation_iff_witness :
    handleQuickSetup "09:00" "10:00" 30 [] = QuickSetupAction.proceed :=
  (C3_amended_confirmation_iff "09:00" "10:00" 30 [] (by decide)).2.mpr (by decide)

/-! ## Claim theorems: day toggle -/

theorem updateAt_length {α : Type} (i : Nat) (f : α → α) (l : List α) :
    (updateAt i f l).length = l.length := by
  induction l generalizing i with
  | nil => cases i <;> rfl
  | cons x xs ih =>
    cases i with
    | zero => rfl
    | succ n => simp only [updateAt, List.length_cons, ih]

theorem updateAt_getD {α : Type} (i : Nat) (f : α → α) (l : List α) (d : α)
    (h : i < l.length) :
    (updateAt i f l).getD i d = f (l.getD i d) := by
  induction l generalizing i with
  | nil => simp at h
  | cons x xs ih =>
    cases i with
    | zero => rfl
    | succ n =>
      simp only [updateAt, List.getD_cons_succ]
      exact ih n (by simpa using h)

/-- C9: toggling a working day off deletes all its stored slots, clears its
working-map key and empties the local day; toggling it back on restores the
working flag (`isOff` back to `false`, map key bound to `true`) while
creating no slots, so everything destroyed by the off-toggle stays
destroyed. -/
theorem C9_toggle_off_then_on (today pageIdx dayIndex : Nat) (wm : WorkingMap)
    (db : List DbSlot) (sched : List DaySchedule)
    (hlen : dayIndex < sched.length)
    (hworking : (sched.getD dayIndex defaultDay).isOff = false) :
    (((toggleDayOff today pageIdx dayIndex wm db sched).sched.getD dayIndex
        defaultDay).isOff = true ∧
      ((toggleDayOff today pageIdx dayIndex wm db sched).sched.getD dayIndex
        defaultDay).slots = [] ∧
      (∀ s ∈ (toggleDayOff today pageIdx dayIndex wm db sched).db,
        s.slot_date ≠ today + pageIdx * 8 + dayIndex) ∧
      lookupWM (toggleDayOff today pageIdx dayIndex wm db sched).wm
        (today + pageIdx * 8 + dayIndex) = none) ∧
    (((toggleDayOffTwice today pageIdx dayIndex wm db sched).sched.getD dayIndex
        defaultDay).isOff = false ∧
      ((toggleDayOffTwice today pageIdx dayIndex wm db sched).sched.getD dayIndex
        defaultDay).slots = [] ∧
      (toggleDayOffTwice today pageIdx dayIndex wm db sched).db =
        (toggleDayOff today pageIdx dayIndex wm db sched).db ∧
      lookupWM (toggleDayOffTwice today pageIdx dayIndex wm db sched).wm
        (today + pageIdx * 8 + dayIndex) = some true) := by
  have h1 : toggleDayOff today pageIdx dayIndex wm db sched =
      { wm := updateWorkingDayState wm (today + pageIdx * 8 + dayIndex) false,
        db := db.filter (fun s => s.slot_date != today + pageIdx * 8 + dayIndex),
        sched := updateAt dayIndex
          (fun day => { day with isOff := true, slots := [] }) sched } := by
    simp only [toggleDayOff]
    rw [if_pos (show (!(sched.getD dayIndex defaultDay).isOff) = true by rw [hworking]; rfl)]
  have hget1 : ((toggleDayOff today pageIdx dayIndex wm db sched).sched.getD dayIndex
      defaultDay) = { sched.getD dayIndex defaultDay with isOff := true, slots := [] } := by
    rw [h1]
    exact updateAt_getD dayIndex _ sched defaultDay hlen
  have h2 : toggleDayOffTwice today pageIdx dayIndex wm db sched =
      { wm := updateWorkingDayState
          (toggleDayOff today pageIdx dayIndex wm db sched).wm
          (today + pageIdx * 8 + dayIndex) true,
        db := (toggleDayOff today pageIdx dayIndex wm db sched).db,
        sched := updateAt dayIndex (fun day => { day with isOff := false })
          (toggleDayOff today pageIdx dayIndex wm db sched).sched } := by
    unfold toggleDayOffTwice
    conv =>
      lhs
      rw [toggleDayOff]
    rw [hget1]
    rfl
  have hlen1 : dayIndex < (toggleDayOff today pageIdx dayIndex wm db sched).sched.length := by
    rw [h1]
    simpa only [updateAt_length] using hlen
  have hget2 : ((toggleDayOffTwice today pageIdx dayIndex wm db sched).sched.getD dayIndex
      defaultDay) =
      { (toggleDayOff today pageIdx dayIndex wm db sched).sched.getD dayIndex defaultDay
        with isOff := false } := by
    rw [h2]
    exact updateAt_getD dayIndex _ _ defaultDay hlen1
  refine ⟨⟨?_, ?_, ?_, ?_⟩, ?_, ?_, ?_, ?_⟩
  · rw [hget1]
  · rw [hget1]
  · intro s hs
    rw [h1] at hs
    have := (List.mem_filter.mp hs).2
    simpa using this
  · rw [h1]
    rw [lookupWM_update_false]
    simp
  · rw [hget2]
  · rw [hget2, hget1]
  · rw [h2]
  · rw [h2]
    rw [lookupWM_update_true]
    simp

def c9sched : List DaySchedule :=
  [{ date := 0, isOff := false,
     slots := [{ id := "x", time := "09:00", available := true, booked := false }] }]

/-- Witness for C9 on a concrete working day holding one slot. -/
theorem C9_toggle_off_then_on_witness :
    ((toggleDayOff 0 0 0 [] [] c9sched).sched.getD 0 defaultDay).isOff = true ∧
    ((toggleDayOffTwice 0 0 0 [] [] c9sched).sched.getD 0 defaultDay).isOff = false ∧
    ((toggleDayOffTwice 0 0 0 [] [] c9sched).sched.getD 0 defaultDay).slots = [] := by
  have h := C9_toggle_off_then_on 0 0 0 [] [] c9sched (by decide) (by decide)
  exact ⟨h.1.1, h.2.1, h.2.2.1⟩

/-! ## Claim theorems: batch clear -/

def c4db : List DbSlot :=
  [{ id := "s2", slot_date := 20, start_time := "09:00:00", end_time := "10:00:00",
     is_booked := false }]

/-- C4 counterexample: with today = 5 on page 0 the clear operation only
iterates over dates 5..12, so a provider slot on date 20 - today or later -
survives the clear, contradicting "deletes every slot whose date is today
or later for the provider". -/
theorem C4_counterexample :
    (∀ s ∈ c4db, 5 ≤ s.slot_date) ∧
    (handleQuickSetupClear 5 0 c4db [] none).db = c4db ∧ c4db ≠ [] := by
  decide

theorem clearLoop_db_mem (today : Nat) (ds : List Nat) (db : List DbSlot)
    (wm : WorkingMap) (s : DbSlot) :
    (s ∈ (clearLoop today ds none (db, wm)).1.1 ↔
      s ∈ db ∧ ∀ d ∈ ds, today ≤ d → s.slot_date ≠ d) := by
  induction ds generalizing db wm with
  | nil => simp [clearLoop]
  | cons d ds ih =>
    rw [clearLoop]
    by_cases hd : d < today
    · rw [if_pos hd, ih, List.forall_mem_cons]
      constructor
      · rintro ⟨h1, h2⟩
        exact ⟨h1, fun hle => absurd hd (by omega), h2⟩
      · rintro ⟨h1, _, h2⟩
        exact ⟨h1, h2⟩
    · rw [if_neg hd, if_neg (by simp),
        show Option.map (fun n : Nat => n - 1) none = none from rfl, ih,
        List.forall_mem_cons]
      constructor
      · rintro ⟨h1, h2⟩
        obtain ⟨hdb, hne⟩ := List.mem_filter.mp h1
        exact ⟨hdb, fun _ => by simpa using hne, h2⟩
      · rintro ⟨h1, hd2, h2⟩
        refine ⟨List.mem_filter.mpr ⟨h1, ?_⟩, h2⟩
        simpa using hd2 (by omega)

theorem clearLoop_wm_lookup (today : Nat) (ds : List Nat) (db : List DbSlot)
    (wm : WorkingMap) (x : Nat) :
    lookupWM (clearLoop today ds none (db, wm)).1.2 x =
      if x ∈ ds ∧ today ≤ x then none else lookupWM wm x := by
  induction ds generalizing db wm with
  | nil => simp [clearLoop]
  | cons d ds ih =>
    rw [clearLoop]
    by_cases hd : d < today
    · rw [if_pos hd, ih]
      have hiff : (x ∈ ds ∧ today ≤ x) ↔ (x ∈ d :: ds ∧ today ≤ x) := by
        rw [List.mem_cons]
        constructor
        · rintro ⟨hmem, hle⟩
          exact ⟨Or.inr hmem, hle⟩
        · rintro ⟨hc | hmem, hle⟩
          · omega
          · exact ⟨hmem, hle⟩
      exact if_congr hiff rfl rfl
    · rw [if_neg hd, if_neg (by simp),
        show Option.map (fun n : Nat => n - 1) none = none from rfl, ih,
        lookupWM_update_false]
      by_cases hds : x ∈ ds ∧ today ≤ x
      · rw [if_pos hds, if_pos ⟨List.mem_cons_of_mem _ hds.1, hds.2⟩]
      · rw [if_neg hds]
        by_cases hx : x = d
        · rw [if_pos hx, if_pos ⟨by rw [hx]; exact List.mem_cons_self _ _, by omega⟩]
        · rw [if_neg hx, if_neg ?_]
          rintro ⟨hmem, hle⟩
          rcases List.mem_cons.mp hmem with h1 | h1
          · exact hx h1
          · exact hds ⟨h1, hle⟩

/-- C4 (amended): the clear operation touches exactly the 8 dates of the
currently displayed page (all of which are today or later): among those it
deletes every slot and clears every working flag, while every slot and
every working flag on any date outside the page - past or future - is left
unchanged. -/
theorem C4_amended_clear_page_only (today pageIdx : Nat) (db : List DbSlot)
    (wm : WorkingMap) :
    (∀ s : DbSlot, s ∈ (handleQuickSetupClear today pageIdx db wm none).db ↔
      s ∈ db ∧ ∀ i < 8, s.slot_date ≠ today + pageIdx * 8 + i) ∧
    (∀ i < 8, lookupWM (handleQuickSetupClear today pageIdx db wm none).wm
      (today + pageIdx * 8 + i) = none) ∧
    (∀ d : Nat, (∀ i < 8, d ≠ today + pageIdx * 8 + i) →
      lookupWM (handleQuickSetupClear today pageIdx db wm none).wm d = lookupWM wm d) := by
  have hdb : (handleQuickSetupClear today pageIdx db wm none).db =
      (clearLoop today ((List.range 8).map (fun i => today + pageIdx * 8 + i))
        none (db, wm)).1.1 := rfl
  have hwm : (handleQuickSetupClear today pageIdx db wm none).wm =
      (clearLoop today ((List.range 8).map (fun i => today + pageIdx * 8 + i))
        none (db, wm)).1.2 := rfl
  refine ⟨?_, ?_, ?_⟩
  · intro s
    rw [hdb, clearLoop_db_mem]
    constructor
    · rintro ⟨h1, h2⟩
      exact ⟨h1, fun i hi =>
        h2 _ (List.mem_map.mpr ⟨i, List.mem_range.mpr hi, rfl⟩) (by omega)⟩
    · rintro ⟨h1, h2⟩
      refine ⟨h1, fun d hd _ => ?_⟩
      obtain ⟨i, hi, rfl⟩ := List.mem_map.mp hd
      exact h2 i (List.mem_range.mp hi)
  · intro i hi
    rw [hwm, clearLoop_wm_lookup]
    rw [if_pos ⟨List.mem_map.mpr ⟨i, List.mem_range.mpr hi, rfl⟩, by omega⟩]
  · intro d hd
    rw [hwm, clearLoop_wm_lookup]
    rw [if_neg ?_]
    rintro ⟨hmem, hle⟩
    obtain ⟨i, hi, rfl⟩ := List.mem_map.mp hmem
    exact hd i (List.mem_range.mp hi) rfl

/-- Witness for C4 (amended): the flag of a date outside the page is kept. -/
theorem C4_amended_clear_page_only_witness :
    lookupWM (handleQuickSetupClear 5 0 c4db [] none).wm 20 = lookupWM [] 20 :=
  (C4_amended_clear_page_only 5 0 c4db []).2.2 20 (by intro i hi; omega)

/-! ## Claim theorems: refetch discipline -/

def c8db : List DbSlot :=
  [{ id := "e1", slot_date := 1, start_time := "09:00:00", end_time := "10:00:00",
     is_booked := false }]

/-- C8 counterexample: a successful single-slot edit mutates the store yet
performs zero authoritative refetches (it only patches local state), so
"every successful or failed local mutation is followed by exactly one
refetch" is false. -/
theorem C8_counterexample :
    (saveTimeSlot 1 "e1" "11:00" [] c8db (loadSlotsSchedule 0 0 [] c8db)).db ≠ c8db ∧
    (saveTimeSlot 1 "e1" "11:00" [] c8db (loadSlotsSchedule 0 0 [] c8db)).refetches = 0 := by
  decide

/-- C8 (amended): the refetch discipline is per-operation, not uniform:
batch setup and batch clear refetch exactly once on success and on failure;
single-slot add and delete refetch exactly once on success but not at all
on a failed storage call; the single-slot edit never refetches on any path
(it relies on local patching and resumed polling). -/
theorem C8_amended_refetch_discipline :
    (∀ (today pageIdx : Nat) (fromTime toTime : String) (dur cm : Nat)
      (wm : WorkingMap) (db : List DbSlot) (batchOk : Bool),
      (executeQuickSetup today pageIdx fromTime toTime dur cm wm db batchOk).refetches = 1) ∧
    (∀ (today pageIdx : Nat) (db : List DbSlot) (wm : WorkingMap) (failAt : Option Nat),
      (handleQuickSetupClear today pageIdx db wm failAt).refetches = 1) ∧
    (∀ (dayIndex : Nat) (slotId editingTime : String) (wm : WorkingMap)
      (db : List DbSlot) (sched : List DaySchedule),
      (saveTimeSlot dayIndex slotId editingTime wm db sched).refetches = 0) ∧
    (∀ (today pageIdx : Nat) (slotId : String) (wm : WorkingMap)
      (db : List DbSlot) (sched : List DaySchedule),
      (removeTimeSlot today pageIdx slotId wm db sched).refetches =
        match backendDeleteSlot db slotId with
        | .ok _ => 1
        | .error _ => 0) ∧
    (∀ (today pageIdx dayIndex cm : Nat) (slotTime : String) (wm : WorkingMap)
      (db : List DbSlot) (sched : List DaySchedule) (serverOk : Bool),
      (instantAddTimeSlot today pageIdx dayIndex cm slotTime wm db sched serverOk).refetches =
        match instantAddOutcome today (today + pageIdx * 8 + dayIndex) cm slotTime with
        | .requested _ => if serverOk then 1 else 0
        | _ => 0) := by
  refine ⟨?_, ?_, ?_, ?_, ?_⟩
  · intro today pageIdx fromTime toTime dur cm wm db batchOk
    simp only [executeQuickSetup]
    split
    · rfl
    · split <;> rfl
  · intro today pageIdx db wm failAt
    rfl
  · intro dayIndex slotId editingTime wm db sched
    simp only [saveTimeSlot]
    split
    · rfl
    · split <;> rfl
  · intro today pageIdx slotId wm db sched
    simp only [removeTimeSlot]
    cases hb : backendDeleteSlot db slotId <;> rfl
  · intro today pageIdx dayIndex cm slotTime wm db sched serverOk
    simp only [instantAddTimeSlot]
    cases ho : instantAddOutcome today (today + pageIdx * 8 + dayIndex) cm slotTime with
    | requested p => cases serverOk <;> rfl
    | rejectedPastDate => rfl
    | rejectedPastTime => rfl
